import Mathlib

/-!
u7: ALSA volume control driven by a Linux input device.

A shallow embedding of `u7.c` and the properties of its volume state machine.

* C `int` is a 32-bit two's-complement integer: values are `Int`s and every
  `+` / `-` of the source is followed by `wrap32`.
* The mixer control is the list of its per-channel values; the outcome of each
  `mixer_ctl_set_value` call is supplied by an oracle indexed by the number of
  calls issued so far.
* The input device is the finite list of the results `read` returns; a process
  that has consumed the whole list is still `running` (blocked in `read`).
-/

namespace U7

/-! Machine integers -/

/-- The value a 32-bit two's-complement `int` holds after an operation whose
exact result is `x`. -/
def wrap32 (x : Int) : Int := (x + 2147483648) % 4294967296 - 2147483648

/-- Representable as a C `int`. -/
def isInt (x : Int) : Prop := -2147483648 ≤ x ∧ x ≤ 2147483647

instance (x : Int) : Decidable (isInt x) := by unfold isInt; infer_instance

/-- C `a - b` on `int`. -/
def isub (a b : Int) : Int := wrap32 (a - b)

/-- C `a + b` on `int`. -/
def iadd (a b : Int) : Int := wrap32 (a + b)

/-! Constants of the headers the program includes -/

/-- From `linux/input.h`. -/
def EV_KEY : Nat := 1
/-- From `linux/input.h`. -/
def KEY_VOLUMEDOWN : Nat := 114
/-- From `linux/input.h`. -/
def KEY_VOLUMEUP : Nat := 115
/-- From `errno.h`. -/
def EINTR : Int := 4
/-- From `stdlib.h`. -/
def EXIT_FAILURE : Int := 1
/-- Value of `sizeof(struct input_event)` (LP64). -/
def sizeofEvent : Int := 24

/-- The fields of `struct input_event` the program looks at. -/
structure InputEvent where
  type : Nat
  code : Nat
  value : Int
deriving DecidableEq

/-- What one call of `read(fd, &event, sizeof(event))` delivers: its return
value, `errno`, and the contents of the buffer. -/
structure ReadResult where
  sret : Int
  errno : Int
  event : InputEvent
deriving DecidableEq

/-- The `enum mixer_ctl_type` of `asoundlib.h`. -/
inductive CtlType where
  | bool | int | enum | byte | iec958 | int64 | unknown
deriving DecidableEq

/-- A mixer control: `mixer_ctl_get_type`, `mixer_ctl_get_range_min`,
`mixer_ctl_get_range_max` and the per-channel values (`mixer_ctl_get_num_values`
is the length of `values`, `mixer_ctl_get_value ctl i` its `i`-th entry). -/
structure Ctl where
  type : CtlType
  min : Int
  max : Int
  values : List Int
deriving DecidableEq

/-- A sound card's mixer: `mixer_get_name` and its controls by name. -/
structure Mixer where
  name : String
  ctls : List (String × Ctl)
deriving DecidableEq

/-- The lines written with `fprintf(stderr, ...)`. -/
inductive Diag where
  | usage
  | failedToOpenMixer
  | invalidMixerControl
  | invalidMixerControlType
  | cannotOpenDevice (device : String) (errno : Int)
  | readError (errno : Int)
  | unexpectedReadSize (sret : Int)
  | errorSettingVolume
deriving DecidableEq

/-- Whether `main` has returned, and with which value. -/
inductive Status where
  | running
  | exited (code : Int)
deriving DecidableEq

/-- The locals `min`, `max` and `step` of `main`, fixed once the loop starts. -/
structure Config where
  min : Int
  max : Int
  step : Int
deriving DecidableEq

/-- State of the process: the local `volume`, the contents of the control's
channels, what was written to `stdout` (one entry per pass through lines
194-197) and `stderr`, the `mixer_ctl_set_value` calls issued so far as
`(channel, value)`, the number of `read` calls made, and the exit status. -/
structure Proc where
  volume : Int
  ctl : List Int
  stdout : List String
  stderr : List Diag
  calls : List (Nat × Int)
  nreads : Nat
  status : Status
deriving DecidableEq

/-! The volume step (lines 167-191) -/

/-- Body of `case KEY_VOLUMEDOWN:` (lines 172-178). -/
def volumeDown (min step volume : Int) : Int :=
  if volume > min then
    if isub volume min ≥ step then isub volume step else min
  else volume

/-- Body of `case KEY_VOLUMEUP:` (lines 181-187). -/
def volumeUp (max step volume : Int) : Int :=
  if volume < max then
    if isub max volume ≥ step then iadd volume step else max
  else volume

/-- Lines 167-191 for one event: `some v` when control reaches `set_volume`
with `volume = v`, `none` when control goes back to `next` without a push. -/
def onEvent (c : Config) (volume : Int) (e : InputEvent) : Option Int :=
  if e.type = EV_KEY ∧ e.value = 0 then
    if e.code = KEY_VOLUMEDOWN then some (volumeDown c.min c.step volume)
    else if e.code = KEY_VOLUMEUP then some (volumeUp c.max c.step volume)
    else none
  else none

/-! The push (label `set_volume`, lines 193-206) -/

/-- The text of `printf("%d", v)`. -/
def fmtInt (v : Int) : String := toString v

/-- The text lines 194-197 write to `stdout`. -/
def report (min max volume : Int) : String :=
  fmtInt volume
    ++ (if volume = min then " (min)" else "")
    ++ (if volume = max then " (max)" else "")
    ++ "\n"

/-- Modelled from the spec: `mixer_ctl_set_value` of `asoundlib.h` (the
`set_value` of §4.1). A failing call returns non-zero and leaves the channel
as it was; a succeeding call returns zero and stores the value in the
channel. -/
def mixer_ctl_set_value (failing : Bool) (ctl : List Int) (i : Nat) (v : Int) :
    Bool × List Int :=
  if failing then (true, ctl) else (false, ctl.set i v)

/-- The `for` loop of lines 199-206 with `k` iterations left and loop index
`i`. `fails n` tells whether the `n`-th `mixer_ctl_set_value` call of the
process (counted from 0) fails. -/
def setLoop (fails : Nat → Bool) : Nat → Nat → Proc → Proc
  | 0, _, p => p
  | k + 1, i, p =>
    let r := mixer_ctl_set_value (fails p.calls.length) p.ctl i p.volume
    let p1 := { p with calls := p.calls ++ [(i, p.volume)], ctl := r.2 }
    if r.1 then
      { p1 with stderr := p1.stderr ++ [Diag.errorSettingVolume],
                status := Status.exited EXIT_FAILURE }
    else setLoop fails k (i + 1) p1

/-- Lines 193-206: print the volume, then set every channel. -/
def setVolume (c : Config) (fails : Nat → Bool) (p : Proc) : Proc :=
  setLoop fails p.ctl.length 0
    { p with stdout := p.stdout ++ [report c.min c.max p.volume] }

/-! The event loop (label `next`, lines 150-208) -/

/-- One pass from `next:` for the result `r` of the `read` call. A process
that has exited reads nothing. -/
def next (c : Config) (fails : Nat → Bool) (p : Proc) (r : ReadResult) : Proc :=
  match p.status with
  | Status.exited _ => p
  | Status.running =>
    let p := { p with nreads := p.nreads + 1 }
    if r.sret = -1 then
      if r.errno = EINTR then p
      else { p with stderr := p.stderr ++ [Diag.readError r.errno],
                    status := Status.exited EXIT_FAILURE }
    else if r.sret ≠ sizeofEvent then
      { p with stderr := p.stderr ++ [Diag.unexpectedReadSize r.sret],
               status := Status.exited EXIT_FAILURE }
    else
      match onEvent c p.volume r.event with
      | none => p
      | some v => setVolume c fails { p with volume := v }

/-- The loop over the results of the successive `read` calls. -/
def run (c : Config) (fails : Nat → Bool) (p : Proc) (reads : List ReadResult) : Proc :=
  reads.foldl (next c fails) p

/-! Startup (lines 61-148) -/

/-- Lines 42-59: the first card, in card order, whose mixer has the name. -/
def u7_mixer_open (name : String) : List Mixer → Option Mixer
  | [] => none
  | m :: rest => if m.name = name then some m else u7_mixer_open name rest

/-- Result of `mixer_get_ctl_by_name`. -/
def mixer_get_ctl_by_name (m : Mixer) (control : String) : Option Ctl :=
  (m.ctls.find? (fun nc => nc.1 = control)).map Prod.snd

/-- Lines 133-139: `volume` after the loop over the channel values. -/
def readVolume (values : List Int) : Int :=
  (List.range values.length).foldl
    (fun volume i => let v := values.getD i 0; if i = 0 then v else volume) 87

/-- What the process finds outside itself at startup: `argv[1..]`, the mixers
of the cards in card order, and for each path the `errno` of a failing `open`
(`none` when `open` succeeds). -/
structure Env where
  args : List String
  cards : List Mixer
  openErrno : String → Option Int

/-- A process that has written `d` to `stderr` and returned `EXIT_FAILURE`
before the control was resolved. -/
def failed (d : Diag) : Proc :=
  { volume := 87, ctl := [], stdout := [], stderr := [d], calls := [], nreads := 0,
    status := Status.exited EXIT_FAILURE }

/-- The process at line 148, about to jump to `set_volume`: nothing written,
nothing read. -/
def startProc (volume : Int) (values : List Int) : Proc :=
  { volume := volume, ctl := values, stdout := [], stderr := [], calls := [], nreads := 0,
    status := Status.running }

/-- The range and step `main` works with for the control `ctl`. -/
def configOf (ctl : Ctl) : Config := { min := ctl.min, max := ctl.max, step := 1 }

/-- The names `main` uses: the defaults, or `argv[1..3]` when `argc == 4`;
`none` for any other argument count. -/
def names (args : List String) : Option (String × String × String) :=
  match args with
  | [] => some ("/dev/input/by-id/usb-ASUS_Xonar_U7-event-if04", "Xonar U7",
                "PCM Playback Volume")
  | [device, mixer_name, control] => some (device, mixer_name, control)
  | _ => none

/-- The whole of `main`, run on the given results of `read`. -/
def main (env : Env) (fails : Nat → Bool) (reads : List ReadResult) : Proc :=
  match names env.args with
  | none => failed Diag.usage
  | some (device, mixer_name, control) =>
    match u7_mixer_open mixer_name env.cards with
    | none => failed Diag.failedToOpenMixer
    | some mixer =>
      match mixer_get_ctl_by_name mixer control with
      | none => failed Diag.invalidMixerControl
      | some ctl =>
        if ctl.type ≠ CtlType.int then failed Diag.invalidMixerControlType
        else
          let volume := readVolume ctl.values
          match env.openErrno device with
          | some e => failed (Diag.cannotOpenDevice device e)
          | none =>
            run (configOf ctl) fails
              (setVolume (configOf ctl) fails (startProc volume ctl.values)) reads


/-! Auxiliary definitions used to state the properties -/

/-- The exact results, in order, of the `int` subtractions lines 172-178
evaluate for the given values. -/
def volumeDownOps (min step volume : Int) : List Int :=
  if volume > min then
    (volume - min) :: (if isub volume min ≥ step then [volume - step] else [])
  else []

/-- The exact results, in order, of the `int` operations lines 181-187
evaluate for the given values. -/
def volumeUpOps (max step volume : Int) : List Int :=
  if volume < max then
    (max - volume) :: (if isub max volume ≥ step then [volume + step] else [])
  else []

/-- The `read` result that delivers the complete event `e`. -/
def delivered (e : InputEvent) : ReadResult := { sret := sizeofEvent, errno := 0, event := e }

/-- Lines 152-154: the `read` failed with `EINTR`. -/
def interrupted (r : ReadResult) : Bool := decide (r.sret = -1) && decide (r.errno = EINTR)

/-- The list `l` with `v` stored at the `m` indices from `i` on. -/
def fill (v : Int) : Nat → Nat → List Int → List Int
  | _, 0, l => l
  | i, m + 1, l => fill v (i + 1) m (l.set i v)

/-- The `mixer_ctl_set_value` calls for the `m` channels from `i` on. -/
def callsFrom (v : Int) (i m : Nat) : List (Nat × Int) :=
  (List.range m).map (fun j => (i + j, v))

/-- The process `p` with its count of `read` calls replaced by `n`. -/
def withReads (n : Nat) (p : Proc) : Proc := { p with nreads := n }

/-- The complete `read` of a released volume-up key. -/
def releasedUp : ReadResult := delivered { type := EV_KEY, code := KEY_VOLUMEUP, value := 0 }

/-- The complete `read` of a released volume-down key. -/
def releasedDown : ReadResult := delivered { type := EV_KEY, code := KEY_VOLUMEDOWN, value := 0 }

/-- An oracle under which every `mixer_ctl_set_value` call succeeds. -/
def noFailure : Nat → Bool := fun _ => false

/-- An oracle under which exactly the `n`-th `mixer_ctl_set_value` call fails. -/
def failureAt (n : Nat) : Nat → Bool := fun j => decide (j = n)

/-- The range and step of the example scenarios: `[0, 100]`, step `1`. -/
def exampleConfig : Config := { min := 0, max := 100, step := 1 }

/-- The widest range an `int` control can declare. -/
def wideConfig : Config := { min := -2147483648, max := 2147483647, step := 1 }

/-- A range with a single value. -/
def pointConfig : Config := { min := 5, max := 5, step := 1 }

/-- An environment with the default names: one card whose mixer has the
control, with channels at `87` and `42`, and a device that opens. -/
def exampleEnv : Env :=
  { args := [],
    cards := [{ name := "Xonar U7",
                ctls := [("PCM Playback Volume",
                          { type := CtlType.int, min := 0, max := 100, values := [87, 42] })] }],
    openErrno := fun _ => none }

/-! Machine arithmetic -/

theorem wrap32_of_isInt {x : Int} (h : isInt x) : wrap32 x = x := by
  unfold wrap32; unfold isInt at h; omega

theorem volumeDown_bounds {min step v : Int} (hmin : isInt min) (hv : isInt v) (hs : 1 ≤ step)
    (hlo : min ≤ v) : min ≤ volumeDown min step v ∧ volumeDown min step v ≤ v := by
  unfold volumeDown isub wrap32; unfold isInt at hmin hv
  split_ifs <;> omega

theorem volumeUp_bounds {max step v : Int} (hmax : isInt max) (hv : isInt v) (hs : 1 ≤ step)
    (hhi : v ≤ max) : v ≤ volumeUp max step v ∧ volumeUp max step v ≤ max := by
  unfold volumeUp isub iadd wrap32; unfold isInt at hmax hv
  split_ifs <;> omega

theorem volumeDown_eq {min step v : Int} (hmin : isInt min) (hv : isInt v) (hs : 1 ≤ step)
    (hlo : min ≤ v) (hw : v - min ≤ 2147483647) :
    volumeDown min step v = Max.max (v - step) min := by
  unfold volumeDown isub wrap32; unfold isInt at hmin hv
  split_ifs <;> omega

theorem volumeUp_eq {max step v : Int} (hmax : isInt max) (hv : isInt v) (hs : 1 ≤ step)
    (hhi : v ≤ max) (hw : max - v ≤ 2147483647) :
    volumeUp max step v = Min.min (v + step) max := by
  unfold volumeUp isub iadd wrap32; unfold isInt at hmax hv
  split_ifs <;> omega

theorem volumeUp_at_max (max step : Int) : volumeUp max step max = max := by
  unfold volumeUp; simp

theorem volumeDown_at_min (min step : Int) : volumeDown min step min = min := by
  unfold volumeDown; simp

/-! The channel loop -/

theorem fill_length (v : Int) (m : Nat) : ∀ (i : Nat) (l : List Int),
    (fill v i m l).length = l.length := by
  induction m with
  | zero => intro i l; rfl
  | succ m ih => intro i l; simp [fill, ih]

theorem fill_getElem? (v : Int) (m : Nat) : ∀ (i : Nat) (l : List Int) (n : Nat),
    (fill v i m l)[n]? = if i ≤ n ∧ n < i + m ∧ n < l.length then some v else l[n]? := by
  induction m with
  | zero =>
    intro i l n
    have h0 : ¬ (i ≤ n ∧ n < i + 0 ∧ n < l.length) := by omega
    rw [if_neg h0]; rfl
  | succ m ih =>
    intro i l n
    simp only [fill, ih, List.length_set, List.getElem?_set]
    by_cases h1 : i = n
    · subst h1
      by_cases h2 : i < l.length
      · simp [h2]
      · have h4 : l[i]? = none := List.getElem?_eq_none (by omega)
        have h5 : ¬ (i + 1 ≤ i ∧ i < i + 1 + m ∧ i < l.length) := by omega
        simp [h2, h4, h5]
    · by_cases h3 : i + 1 ≤ n ∧ n < i + 1 + m ∧ n < l.length
      · have : i ≤ n ∧ n < i + (m + 1) ∧ n < l.length := by omega
        simp [h3, this]
      · have : ¬ (i ≤ n ∧ n < i + (m + 1) ∧ n < l.length) := by omega
        simp [h3, this, h1]

theorem fill_all (v : Int) (l : List Int) : fill v 0 l.length l = List.replicate l.length v := by
  apply List.ext_getElem?
  intro n
  rw [fill_getElem?, List.getElem?_replicate]
  by_cases h : n < l.length
  · simp [h]
  · simp [h]; omega

theorem callsFrom_succ (v : Int) (i m : Nat) :
    callsFrom v i (m + 1) = (i, v) :: callsFrom v (i + 1) m := by
  unfold callsFrom
  rw [List.range_succ_eq_map]
  simp [List.map_map, Function.comp_def]
  intro a _; omega

theorem setLoop_volume (fails : Nat → Bool) (k : Nat) : ∀ (i : Nat) (p : Proc),
    (setLoop fails k i p).volume = p.volume := by
  induction k with
  | zero => intro i p; rfl
  | succ k ih =>
    intro i p
    simp only [setLoop]
    split
    · rfl
    · rw [ih]

theorem setLoop_stdout (fails : Nat → Bool) (k : Nat) : ∀ (i : Nat) (p : Proc),
    (setLoop fails k i p).stdout = p.stdout := by
  induction k with
  | zero => intro i p; rfl
  | succ k ih =>
    intro i p
    simp only [setLoop]
    split
    · rfl
    · rw [ih]

theorem setLoop_nreads (fails : Nat → Bool) (k : Nat) : ∀ (i : Nat) (p : Proc),
    (setLoop fails k i p).nreads = p.nreads := by
  induction k with
  | zero => intro i p; rfl
  | succ k ih =>
    intro i p
    simp only [setLoop]
    split
    · rfl
    · rw [ih]

/-- Every call the loop issues carries the volume. -/
theorem setLoop_calls_value (fails : Nat → Bool) (k : Nat) : ∀ (i : Nat) (p : Proc),
    (∀ x ∈ p.calls, x.2 = p.volume) → ∀ x ∈ (setLoop fails k i p).calls, x.2 = p.volume := by
  induction k with
  | zero => intro i p h; exact h
  | succ k ih =>
    intro i p h
    simp only [setLoop]
    split
    · intro x hx
      simp only [List.mem_append, List.mem_singleton] at hx
      rcases hx with hx | hx
      · exact h x hx
      · rw [hx]
    · apply ih
      intro x hx
      simp only [List.mem_append, List.mem_singleton] at hx
      rcases hx with hx | hx
      · exact h x hx
      · rw [hx]

/-- The loop when none of its `k` calls fails. -/
theorem setLoop_success (fails : Nat → Bool) (k : Nat) : ∀ (i : Nat) (p : Proc),
    (∀ j, j < k → fails (p.calls.length + j) = false) →
    setLoop fails k i p =
      { p with calls := p.calls ++ callsFrom p.volume i k, ctl := fill p.volume i k p.ctl } := by
  induction k with
  | zero => intro i p _; simp [setLoop, callsFrom, fill]
  | succ k ih =>
    intro i p h
    have h0 : fails p.calls.length = false := by simpa using h 0 (Nat.succ_pos k)
    simp only [setLoop, mixer_ctl_set_value, h0]
    simp only [Bool.false_eq_true, if_false]
    rw [ih]
    · simp [callsFrom_succ, fill]
    · intro j hj
      have := h (j + 1) (by omega)
      simpa [Nat.add_assoc, Nat.add_comm 1 j] using this

/-- The loop when its first failing call is the one for channel `i + m`. -/
theorem setLoop_failure (fails : Nat → Bool) (m : Nat) : ∀ (k i : Nat) (p : Proc),
    m < k → (∀ j, j < m → fails (p.calls.length + j) = false) →
    fails (p.calls.length + m) = true →
    setLoop fails k i p =
      { p with calls := p.calls ++ callsFrom p.volume i (m + 1),
               ctl := fill p.volume i m p.ctl,
               stderr := p.stderr ++ [Diag.errorSettingVolume],
               status := Status.exited EXIT_FAILURE } := by
  induction m with
  | zero =>
    intro k i p hk _ hf
    obtain ⟨k, rfl⟩ : ∃ k', k = k' + 1 := ⟨k - 1, by omega⟩
    have hf0 : fails p.calls.length = true := by simpa using hf
    simp [setLoop, mixer_ctl_set_value, hf0, callsFrom, fill, List.range_succ]
  | succ m ih =>
    intro k i p hk hs hf
    obtain ⟨k, rfl⟩ : ∃ k', k = k' + 1 := ⟨k - 1, by omega⟩
    have h0 : fails p.calls.length = false := by simpa using hs 0 (Nat.succ_pos m)
    simp only [setLoop, mixer_ctl_set_value, h0]
    simp only [Bool.false_eq_true, if_false]
    rw [ih k (i + 1) _ (by omega)]
    · simp [callsFrom_succ p.volume i (m + 1), fill]
    · intro j hj
      have := hs (j + 1) (by omega)
      simpa [Nat.add_assoc, Nat.add_comm 1 j] using this
    · simpa [Nat.add_assoc, Nat.add_comm 1 m] using hf

/-- A loop that leaves the process running had no failing call. -/
theorem setLoop_running (fails : Nat → Bool) (k : Nat) : ∀ (i : Nat) (p : Proc),
    (setLoop fails k i p).status = Status.running →
    ∀ j, j < k → fails (p.calls.length + j) = false := by
  induction k with
  | zero => intro i p _ j hj; omega
  | succ k ih =>
    intro i p h j hj
    simp only [setLoop, mixer_ctl_set_value] at h
    by_cases h0 : fails p.calls.length = true
    · simp [h0] at h
    · simp only [h0, Bool.false_eq_true, if_false] at h
      cases j with
      | zero => simpa using h0
      | succ j =>
        have := ih (i + 1) _ h j (by omega)
        simpa [Nat.add_assoc, Nat.add_comm 1 j] using this

/-! The push and the event loop -/

theorem setVolume_volume (c : Config) (fails : Nat → Bool) (p : Proc) :
    (setVolume c fails p).volume = p.volume := by
  unfold setVolume; rw [setLoop_volume]

theorem setVolume_stdout (c : Config) (fails : Nat → Bool) (p : Proc) :
    (setVolume c fails p).stdout = p.stdout ++ [report c.min c.max p.volume] := by
  unfold setVolume; rw [setLoop_stdout]

theorem setVolume_nreads (c : Config) (fails : Nat → Bool) (p : Proc) :
    (setVolume c fails p).nreads = p.nreads := by
  unfold setVolume; rw [setLoop_nreads]

/-- The push when none of its calls fails. -/
theorem setVolume_success (c : Config) (fails : Nat → Bool) (p : Proc)
    (hok : ∀ j, j < p.ctl.length → fails (p.calls.length + j) = false) :
    setVolume c fails p =
      { p with stdout := p.stdout ++ [report c.min c.max p.volume],
               calls := p.calls ++ callsFrom p.volume 0 p.ctl.length,
               ctl := List.replicate p.ctl.length p.volume } := by
  have e := setLoop_success fails p.ctl.length 0
    { p with stdout := p.stdout ++ [report c.min c.max p.volume] } hok
  unfold setVolume
  rw [e]
  simp [fill_all]

theorem next_exited (c : Config) (fails : Nat → Bool) (p : Proc) (r : ReadResult) (code : Int)
    (h : p.status = Status.exited code) : next c fails p r = p := by
  unfold next; rw [h]

theorem run_exited (c : Config) (fails : Nat → Bool) (reads : List ReadResult) :
    ∀ (p : Proc) (code : Int), p.status = Status.exited code → run c fails p reads = p := by
  induction reads with
  | nil => intro p code _; rfl
  | cons r rest ih =>
    intro p code h
    show run c fails (next c fails p r) rest = p
    rw [next_exited c fails p r code h]
    exact ih p code h

theorem run_append (c : Config) (fails : Nat → Bool) (p : Proc) (l₁ l₂ : List ReadResult) :
    run c fails p (l₁ ++ l₂) = run c fails (run c fails p l₁) l₂ := by
  unfold run; rw [List.foldl_append]

/-- A running process that gets a complete event. -/
theorem next_delivered (c : Config) (fails : Nat → Bool) (p : Proc) (e : InputEvent)
    (h : p.status = Status.running) :
    next c fails p (delivered e) =
      match onEvent c p.volume e with
      | none => { p with nreads := p.nreads + 1 }
      | some v => setVolume c fails { p with nreads := p.nreads + 1, volume := v } := by
  unfold next; rw [h]
  simp [delivered, sizeofEvent]

theorem onEvent_down (c : Config) (v : Int) :
    onEvent c v ⟨EV_KEY, KEY_VOLUMEDOWN, 0⟩ = some (volumeDown c.min c.step v) := by
  simp [onEvent]

theorem onEvent_up (c : Config) (v : Int) :
    onEvent c v ⟨EV_KEY, KEY_VOLUMEUP, 0⟩ = some (volumeUp c.max c.step v) := by
  simp [onEvent, KEY_VOLUMEUP, KEY_VOLUMEDOWN]

theorem next_down_volume (c : Config) (fails : Nat → Bool) (p : Proc)
    (h : p.status = Status.running) :
    (next c fails p (delivered ⟨EV_KEY, KEY_VOLUMEDOWN, 0⟩)).volume
      = volumeDown c.min c.step p.volume := by
  rw [next_delivered c fails p _ h, onEvent_down]
  simp [setVolume_volume]

theorem next_up_volume (c : Config) (fails : Nat → Bool) (p : Proc)
    (h : p.status = Status.running) :
    (next c fails p (delivered ⟨EV_KEY, KEY_VOLUMEUP, 0⟩)).volume
      = volumeUp c.max c.step p.volume := by
  rw [next_delivered c fails p _ h, onEvent_up]
  simp [setVolume_volume]

theorem next_down_stdout (c : Config) (fails : Nat → Bool) (p : Proc)
    (h : p.status = Status.running) :
    (next c fails p (delivered ⟨EV_KEY, KEY_VOLUMEDOWN, 0⟩)).stdout
      = p.stdout ++ [report c.min c.max (volumeDown c.min c.step p.volume)] := by
  rw [next_delivered c fails p _ h, onEvent_down]
  simp [setVolume_stdout]

theorem next_up_stdout (c : Config) (fails : Nat → Bool) (p : Proc)
    (h : p.status = Status.running) :
    (next c fails p (delivered ⟨EV_KEY, KEY_VOLUMEUP, 0⟩)).stdout
      = p.stdout ++ [report c.min c.max (volumeUp c.max c.step p.volume)] := by
  rw [next_delivered c fails p _ h, onEvent_up]
  simp [setVolume_stdout]

/-- The volume after one pass is the old one or the one `onEvent` computes. -/
theorem next_volume (c : Config) (fails : Nat → Bool) (p : Proc) (r : ReadResult) :
    (next c fails p r).volume = p.volume ∨
      onEvent c p.volume r.event = some (next c fails p r).volume := by
  unfold next
  cases p.status with
  | exited code => left; rfl
  | running =>
    simp only
    split_ifs
    · left; rfl
    · left; rfl
    · left; rfl
    · cases h : onEvent c p.volume r.event with
      | none => left; rfl
      | some v => right; simp [setVolume_volume]

theorem onEvent_bounds (c : Config) (v w : Int) (e : InputEvent)
    (hmin : isInt c.min) (hmax : isInt c.max) (hstep : 1 ≤ c.step)
    (hlo : c.min ≤ v) (hhi : v ≤ c.max) (h : onEvent c v e = some w) :
    c.min ≤ w ∧ w ≤ c.max := by
  have hv : isInt v := by unfold isInt at *; omega
  unfold onEvent at h
  split_ifs at h
  · have := volumeDown_bounds hmin hv hstep hlo
    simp only [Option.some.injEq] at h
    omega
  · have := volumeUp_bounds hmax hv hstep hhi
    simp only [Option.some.injEq] at h
    omega

theorem next_bounds (c : Config) (fails : Nat → Bool) (p : Proc) (r : ReadResult)
    (hmin : isInt c.min) (hmax : isInt c.max) (hstep : 1 ≤ c.step)
    (hlo : c.min ≤ p.volume) (hhi : p.volume ≤ c.max) :
    c.min ≤ (next c fails p r).volume ∧ (next c fails p r).volume ≤ c.max := by
  rcases next_volume c fails p r with h | h
  · rw [h]; exact ⟨hlo, hhi⟩
  · exact onEvent_bounds c p.volume _ r.event hmin hmax hstep hlo hhi h

theorem run_bounds (c : Config) (fails : Nat → Bool) (reads : List ReadResult)
    (hmin : isInt c.min) (hmax : isInt c.max) (hstep : 1 ≤ c.step) :
    ∀ p : Proc, c.min ≤ p.volume → p.volume ≤ c.max →
      c.min ≤ (run c fails p reads).volume ∧ (run c fails p reads).volume ≤ c.max := by
  induction reads with
  | nil => intro p hlo hhi; exact ⟨hlo, hhi⟩
  | cons r rest ih =>
    intro p hlo hhi
    have hb := next_bounds c fails p r hmin hmax hstep hlo hhi
    exact ih (next c fails p r) hb.1 hb.2

/-! Interrupted reads -/

theorem setLoop_withReads (fails : Nat → Bool) (n : Nat) (k : Nat) :
    ∀ (i : Nat) (p : Proc),
    setLoop fails k i (withReads n p) = withReads n (setLoop fails k i p) := by
  induction k with
  | zero => intro i p; rfl
  | succ k ih =>
    intro i p
    by_cases h : fails p.calls.length = true
    · simp [setLoop, mixer_ctl_set_value, withReads, h]
    · have h' : fails p.calls.length = false := by simpa using h
      have e := ih (i + 1) { p with calls := p.calls ++ [(i, p.volume)], ctl := p.ctl.set i p.volume }
      simpa [setLoop, mixer_ctl_set_value, withReads, h'] using e

theorem setVolume_withReads (c : Config) (fails : Nat → Bool) (n : Nat) (p : Proc) :
    setVolume c fails (withReads n p) = withReads n (setVolume c fails p) := by
  unfold setVolume
  exact setLoop_withReads fails n p.ctl.length 0
    { p with stdout := p.stdout ++ [report c.min c.max p.volume] }

theorem next_withReads (c : Config) (fails : Nat → Bool) (p : Proc) (r : ReadResult)
    (n : Nat) :
    ∃ m, next c fails (withReads n p) r = withReads m (next c fails p r) := by
  obtain ⟨vol, ctl, out, err, calls, nr, st⟩ := p
  cases st with
  | exited code => exact ⟨n, rfl⟩
  | running =>
    refine ⟨n + 1, ?_⟩
    simp only [next, withReads]
    split_ifs
    · rfl
    · rfl
    · rfl
    · cases onEvent c vol r.event with
      | none => rfl
      | some v =>
        exact setVolume_withReads c fails (n + 1)
          ⟨v, ctl, out, err, calls, nr + 1, Status.running⟩

theorem run_withReads (c : Config) (fails : Nat → Bool) (reads : List ReadResult) :
    ∀ (p : Proc) (n : Nat),
    ∃ m, run c fails (withReads n p) reads = withReads m (run c fails p reads) := by
  induction reads with
  | nil => intro p n; exact ⟨n, rfl⟩
  | cons r rest ih =>
    intro p n
    obtain ⟨m, hm⟩ := next_withReads c fails p r n
    show ∃ m, run c fails (next c fails (withReads n p) r) rest = _
    rw [hm]
    exact ih (next c fails p r) m

theorem next_interrupted (c : Config) (fails : Nat → Bool) (p : Proc) (r : ReadResult)
    (h : interrupted r = true) : ∃ m, next c fails p r = withReads m p := by
  simp only [interrupted, Bool.and_eq_true, decide_eq_true_eq] at h
  cases hs : p.status with
  | exited code => exact ⟨p.nreads, next_exited c fails p r code hs⟩
  | running =>
    refine ⟨p.nreads + 1, ?_⟩
    unfold next
    rw [hs]
    simp [h.1, h.2, withReads, hs]

theorem run_filter_interrupted (c : Config) (fails : Nat → Bool) (reads : List ReadResult) :
    ∀ p : Proc, ∃ m,
      run c fails p (reads.filter (fun r => !interrupted r))
        = withReads m (run c fails p reads) := by
  induction reads with
  | nil => intro p; exact ⟨p.nreads, rfl⟩
  | cons r rest ih =>
    intro p
    have hrun : run c fails p (r :: rest) = run c fails (next c fails p r) rest := rfl
    by_cases h : interrupted r = true
    · obtain ⟨m, hm⟩ := next_interrupted c fails p r h
      obtain ⟨m₁, h₁⟩ := run_withReads c fails rest p m
      obtain ⟨m₂, h₂⟩ := ih p
      refine ⟨m₂, ?_⟩
      have hf : (r :: rest).filter (fun r => !interrupted r)
          = rest.filter (fun r => !interrupted r) := by
        rw [List.filter_cons]; simp [h]
      rw [hf, hrun, hm, h₁, h₂]
      rfl
    · obtain ⟨m, hm⟩ := ih (next c fails p r)
      refine ⟨m, ?_⟩
      have hf : (r :: rest).filter (fun r => !interrupted r)
          = r :: rest.filter (fun r => !interrupted r) := by
        rw [List.filter_cons]; simp [h]
      rw [hf, hrun]
      exact hm

/-! Startup -/

theorem foldl_map_succ_readVolume (values : List Int) (l : List Nat) (acc : Int) :
    (l.map Nat.succ).foldl
      (fun volume i => let v := values.getD i 0; if i = 0 then v else volume) acc = acc := by
  induction l generalizing acc with
  | nil => rfl
  | cons a l ih => simp only [List.map_cons, List.foldl_cons]; simpa using ih acc

theorem readVolume_cons (v0 : Int) (rest : List Int) : readVolume (v0 :: rest) = v0 := by
  unfold readVolume
  rw [List.length_cons, List.range_succ_eq_map, List.foldl_cons]
  rw [foldl_map_succ_readVolume]
  simp

theorem main_started (env : Env) (fails : Nat → Bool) (reads : List ReadResult)
    (device mixer_name control : String) (mixer : Mixer) (ctl : Ctl)
    (hargs : names env.args = some (device, mixer_name, control))
    (hmixer : u7_mixer_open mixer_name env.cards = some mixer)
    (hctl : mixer_get_ctl_by_name mixer control = some ctl)
    (htype : ctl.type = CtlType.int)
    (hopen : env.openErrno device = none) :
    main env fails reads = run (configOf ctl) fails
      (setVolume (configOf ctl) fails (startProc (readVolume ctl.values) ctl.values)) reads := by
  unfold main
  simp [hargs, hmixer, hctl, htype, hopen]

/-! The claims -/

/-- C1 (clamping invariant): for a range and a step of at least 1, a process
whose volume lies in the range keeps it in the range after each of any finite
sequence of `read` results, in particular after each of any sequence of input
events of any type, code and value. -/
theorem volume_stays_in_range (c : Config) (fails : Nat → Bool) (p : Proc)
    (reads : List ReadResult) (k : Nat)
    (hmin : isInt c.min) (hmax : isInt c.max) (hstep : 1 ≤ c.step)
    (hlo : c.min ≤ p.volume) (hhi : p.volume ≤ c.max) :
    c.min ≤ (run c fails p (reads.take k)).volume ∧
      (run c fails p (reads.take k)).volume ≤ c.max :=
  run_bounds c fails (reads.take k) hmin hmax hstep p hlo hhi

theorem volume_stays_in_range_witness :
    (isInt wideConfig.min ∧ isInt wideConfig.max ∧ 1 ≤ wideConfig.step ∧
      wideConfig.min ≤ (startProc 7 [7, 9]).volume ∧
      (startProc 7 [7, 9]).volume ≤ wideConfig.max) ∧
    (wideConfig.min
        ≤ (run wideConfig noFailure (startProc 7 [7, 9])
            ([releasedDown, releasedUp, releasedUp].take 2)).volume ∧
      (run wideConfig noFailure (startProc 7 [7, 9])
            ([releasedDown, releasedUp, releasedUp].take 2)).volume ≤ wideConfig.max) :=
  ⟨by decide,
   volume_stays_in_range wideConfig noFailure (startProc 7 [7, 9])
     [releasedDown, releasedUp, releasedUp] 2
     (by decide) (by decide) (by decide) (by decide) (by decide)⟩

/-- C2 as stated fails: on the range `[-2147483648, 2147483647]` with step 1
and volume 0, a released volume-down key sets the volume to the minimum and
not to `max (0 - 1) min = -1`, because `volume - min` does not fit an `int`. -/
theorem saturating_step_counterexample :
    (isInt wideConfig.min ∧ isInt wideConfig.max ∧ 1 ≤ wideConfig.step ∧
      wideConfig.min ≤ (startProc 0 [0]).volume ∧ (startProc 0 [0]).volume ≤ wideConfig.max) ∧
    (next wideConfig noFailure (startProc 0 [0]) releasedDown).volume = -2147483648 ∧
    (next wideConfig noFailure (startProc 0 [0]) releasedDown).volume
      ≠ Max.max ((startProc 0 [0]).volume - wideConfig.step) wideConfig.min := by
  decide

/-- C2 (saturating step, amended): for an `int` range, a step of at least 1 and
a running process whose volume lies in the range, a released volume-down key
sets the volume to `max (volume - step) min`, lowering it by exactly
`min step (volume - min)`, provided `volume - min` fits an `int`; a released
volume-up key sets it to `min (volume + step) max`, raising it by exactly
`min step (max - volume)`, provided `max - volume` fits an `int`. -/
theorem saturating_step (c : Config) (fails : Nat → Bool) (p : Proc)
    (hmin : isInt c.min) (hmax : isInt c.max) (hstep : 1 ≤ c.step)
    (hlo : c.min ≤ p.volume) (hhi : p.volume ≤ c.max) (hrun : p.status = Status.running) :
    (p.volume - c.min ≤ 2147483647 →
      (next c fails p releasedDown).volume = Max.max (p.volume - c.step) c.min ∧
      p.volume - (next c fails p releasedDown).volume = Min.min c.step (p.volume - c.min)) ∧
    (c.max - p.volume ≤ 2147483647 →
      (next c fails p releasedUp).volume = Min.min (p.volume + c.step) c.max ∧
      (next c fails p releasedUp).volume - p.volume = Min.min c.step (c.max - p.volume)) := by
  have hv : isInt p.volume := by unfold isInt at *; omega
  constructor
  · intro hw
    have h := next_down_volume c fails p hrun
    have e := volumeDown_eq hmin hv hstep hlo hw
    unfold releasedDown
    rw [h, e]
    constructor
    · rfl
    · omega
  · intro hw
    have h := next_up_volume c fails p hrun
    have e := volumeUp_eq hmax hv hstep hhi hw
    unfold releasedUp
    rw [h, e]
    constructor
    · rfl
    · omega

theorem saturating_step_witness :
    (isInt exampleConfig.min ∧ isInt exampleConfig.max ∧ 1 ≤ exampleConfig.step ∧
      exampleConfig.min ≤ (startProc 87 [87, 42]).volume ∧
      (startProc 87 [87, 42]).volume ≤ exampleConfig.max ∧
      (startProc 87 [87, 42]).status = Status.running ∧
      (startProc 87 [87, 42]).volume - exampleConfig.min ≤ 2147483647 ∧
      exampleConfig.max - (startProc 87 [87, 42]).volume ≤ 2147483647) ∧
    (next exampleConfig noFailure (startProc 87 [87, 42]) releasedDown).volume
      = Max.max ((startProc 87 [87, 42]).volume - exampleConfig.step) exampleConfig.min ∧
    (next exampleConfig noFailure (startProc 87 [87, 42]) releasedUp).volume
      = Min.min ((startProc 87 [87, 42]).volume + exampleConfig.step) exampleConfig.max :=
  ⟨by decide,
   ((saturating_step exampleConfig noFailure (startProc 87 [87, 42])
      (by decide) (by decide) (by decide) (by decide) (by decide) rfl).1 (by decide)).1,
   ((saturating_step exampleConfig noFailure (startProc 87 [87, 42])
      (by decide) (by decide) (by decide) (by decide) (by decide) rfl).2 (by decide)).1⟩

/-- C3 (irrelevant events are no-ops): for every process and every input event
that is not a key event with value 0 (released) and code volume-up or
volume-down, handling the event leaves the volume, the channels of the
control, the list of `mixer_ctl_set_value` calls, `stdout`, `stderr` and the
exit status as they were. -/
theorem irrelevant_event_is_noop (c : Config) (fails : Nat → Bool) (p : Proc) (e : InputEvent)
    (h : ¬ (e.type = EV_KEY ∧ e.value = 0 ∧
            (e.code = KEY_VOLUMEUP ∨ e.code = KEY_VOLUMEDOWN))) :
    (next c fails p (delivered e)).volume = p.volume ∧
    (next c fails p (delivered e)).ctl = p.ctl ∧
    (next c fails p (delivered e)).calls = p.calls ∧
    (next c fails p (delivered e)).stdout = p.stdout ∧
    (next c fails p (delivered e)).stderr = p.stderr ∧
    (next c fails p (delivered e)).status = p.status := by
  have hnone : onEvent c p.volume e = none := by
    unfold onEvent
    split_ifs with h1 h2 h3
    · exact absurd ⟨h1.1, h1.2, Or.inr h2⟩ h
    · exact absurd ⟨h1.1, h1.2, Or.inl h3⟩ h
    · rfl
    · rfl
  cases hs : p.status with
  | exited code =>
    rw [next_exited c fails p _ code hs]
    simp [hs]
  | running =>
    rw [next_delivered c fails p e hs, hnone]
    simp [hs]

theorem irrelevant_event_is_noop_witness :
    ¬ ((InputEvent.mk EV_KEY KEY_VOLUMEUP 1).type = EV_KEY ∧
        (InputEvent.mk EV_KEY KEY_VOLUMEUP 1).value = 0 ∧
        ((InputEvent.mk EV_KEY KEY_VOLUMEUP 1).code = KEY_VOLUMEUP ∨
          (InputEvent.mk EV_KEY KEY_VOLUMEUP 1).code = KEY_VOLUMEDOWN)) ∧
    (next exampleConfig noFailure (startProc 87 [87, 42])
        (delivered (InputEvent.mk EV_KEY KEY_VOLUMEUP 1))).volume = (startProc 87 [87, 42]).volume ∧
    (next exampleConfig noFailure (startProc 87 [87, 42])
        (delivered (InputEvent.mk EV_KEY KEY_VOLUMEUP 1))).stdout = (startProc 87 [87, 42]).stdout :=
  ⟨by decide,
   (irrelevant_event_is_noop exampleConfig noFailure (startProc 87 [87, 42])
      (InputEvent.mk EV_KEY KEY_VOLUMEUP 1) (by decide)).1,
   (irrelevant_event_is_noop exampleConfig noFailure (startProc 87 [87, 42])
      (InputEvent.mk EV_KEY KEY_VOLUMEUP 1) (by decide)).2.2.2.1⟩

/-- C4 (fan-out): for every channel count, every prior contents of the
channels and every volume, after a push (`setVolume`, reached at startup and
after every relevant event) in which every `mixer_ctl_set_value` call
succeeds, the control has as many channels as before and every channel holds
the current volume. -/
theorem push_fans_out (c : Config) (fails : Nat → Bool) (p : Proc)
    (hok : ∀ j, j < p.ctl.length → fails (p.calls.length + j) = false) :
    (setVolume c fails p).volume = p.volume ∧
    (setVolume c fails p).ctl.length = p.ctl.length ∧
    (∀ i, i < p.ctl.length → (setVolume c fails p).ctl[i]? = some (setVolume c fails p).volume) ∧
    (setVolume c fails p).status = p.status := by
  rw [setVolume_success c fails p hok]
  refine ⟨rfl, ?_, ?_, rfl⟩
  · simp
  · intro i hi
    simp [List.getElem?_replicate, hi]

theorem push_fans_out_witness :
    (∀ j, j < (startProc 87 [87, 42, 3]).ctl.length →
        noFailure ((startProc 87 [87, 42, 3]).calls.length + j) = false) ∧
    (setVolume exampleConfig noFailure (startProc 87 [87, 42, 3])).ctl = [87, 87, 87] ∧
    (∀ i, i < (startProc 87 [87, 42, 3]).ctl.length →
        (setVolume exampleConfig noFailure (startProc 87 [87, 42, 3])).ctl[i]?
          = some (setVolume exampleConfig noFailure (startProc 87 [87, 42, 3])).volume) :=
  ⟨fun _ _ => rfl, by decide,
   (push_fans_out exampleConfig noFailure (startProc 87 [87, 42, 3]) (fun _ _ => rfl)).2.2.1⟩

/-- C5 (startup normalization): when the names resolve to a mixer and an
integer control with channels `v0 :: rest` (which may differ from each other)
and the device opens, then before any `read` the volume is `v0`, the value of
channel 0, exactly one line was printed, the one reporting `v0`, and every
`mixer_ctl_set_value` call issued carries `v0`; if the process is running at
that point, one call was issued per channel, in index order, and every channel
holds `v0`. -/
theorem startup_normalization (env : Env) (fails : Nat → Bool)
    (device mixer_name control : String) (mixer : Mixer) (ctl : Ctl) (v0 : Int)
    (rest : List Int)
    (hargs : names env.args = some (device, mixer_name, control))
    (hmixer : u7_mixer_open mixer_name env.cards = some mixer)
    (hctl : mixer_get_ctl_by_name mixer control = some ctl)
    (htype : ctl.type = CtlType.int)
    (hopen : env.openErrno device = none)
    (hvals : ctl.values = v0 :: rest) :
    (main env fails []).volume = v0 ∧
    (main env fails []).nreads = 0 ∧
    (main env fails []).stdout = [report ctl.min ctl.max v0] ∧
    (∀ x ∈ (main env fails []).calls, x.2 = v0) ∧
    ((main env fails []).status = Status.running →
      (main env fails []).calls = (List.range ctl.values.length).map (fun i => (i, v0)) ∧
      ∀ i, i < ctl.values.length → (main env fails []).ctl[i]? = some v0) := by
  have hm := main_started env fails [] device mixer_name control mixer ctl
    hargs hmixer hctl htype hopen
  have hv : readVolume ctl.values = v0 := by rw [hvals]; exact readVolume_cons v0 rest
  rw [hv] at hm
  have hm' : main env fails [] = setVolume (configOf ctl) fails (startProc v0 ctl.values) := hm
  rw [hm']
  refine ⟨setVolume_volume _ _ _, setVolume_nreads _ _ _, ?_, ?_, ?_⟩
  · rw [setVolume_stdout]; rfl
  · exact setLoop_calls_value fails _ 0 _ (fun x hx => by simp [startProc] at hx)
  · intro hrun
    have hok := setLoop_running fails _ 0 _ hrun
    rw [setVolume_success (configOf ctl) fails (startProc v0 ctl.values) hok]
    constructor
    · simp [startProc, callsFrom]
    · intro i hi
      simp [startProc, List.getElem?_replicate, hi]

theorem startup_normalization_witness :
    (names exampleEnv.args
        = some ("/dev/input/by-id/usb-ASUS_Xonar_U7-event-if04", "Xonar U7",
                "PCM Playback Volume") ∧
      (main exampleEnv noFailure []).status = Status.running) ∧
    (main exampleEnv noFailure []).volume = 87 ∧
    (main exampleEnv noFailure []).stdout = ["87\n"] ∧
    (main exampleEnv noFailure []).ctl = [87, 87] ∧
    (∀ i, i < 2 → (main exampleEnv noFailure []).ctl[i]? = some 87) :=
  ⟨by decide,
   (startup_normalization exampleEnv noFailure "/dev/input/by-id/usb-ASUS_Xonar_U7-event-if04"
      "Xonar U7" "PCM Playback Volume"
      { name := "Xonar U7",
        ctls := [("PCM Playback Volume",
                  { type := CtlType.int, min := 0, max := 100, values := [87, 42] })] }
      { type := CtlType.int, min := 0, max := 100, values := [87, 42] } 87 [42]
      rfl (by decide) (by decide) rfl rfl rfl).1,
   by decide, by decide,
   ((startup_normalization exampleEnv noFailure "/dev/input/by-id/usb-ASUS_Xonar_U7-event-if04"
      "Xonar U7" "PCM Playback Volume"
      { name := "Xonar U7",
        ctls := [("PCM Playback Volume",
                  { type := CtlType.int, min := 0, max := 100, values := [87, 42] })] }
      { type := CtlType.int, min := 0, max := 100, values := [87, 42] } 87 [42]
      rfl (by decide) (by decide) rfl rfl rfl).2.2.2.2 (by decide)).2⟩

theorem run_replicate_succ (c : Config) (fails : Nat → Bool) (p : Proc) (r : ReadResult)
    (n : Nat) :
    run c fails p (List.replicate (n + 1) r) = next c fails (run c fails p (List.replicate n r)) r := by
  have h : List.replicate (n + 1) r = List.replicate n r ++ [r] := by
    rw [← List.replicate_succ']
  rw [h, run_append]; rfl

theorem run_up_at_max (c : Config) (fails : Nat → Bool) (p : Proc) (hv : p.volume = c.max)
    (n : Nat) :
    (∀ k, k < n → (run c fails p (List.replicate k releasedUp)).status = Status.running) →
    (run c fails p (List.replicate n releasedUp)).volume = c.max ∧
    (run c fails p (List.replicate n releasedUp)).stdout
      = p.stdout ++ List.replicate n (report c.min c.max c.max) := by
  induction n with
  | zero => intro _; exact ⟨hv, by simp [run]⟩
  | succ n ih =>
    intro h
    have hn := ih (fun k hk => h k (by omega))
    have hs := h n (by omega)
    rw [run_replicate_succ]
    unfold releasedUp at *
    rw [next_up_volume c fails _ hs, next_up_stdout c fails _ hs, hn.1, hn.2,
      volumeUp_at_max]
    exact ⟨rfl, by rw [List.replicate_succ', List.append_assoc]⟩

theorem run_down_at_min (c : Config) (fails : Nat → Bool) (p : Proc) (hv : p.volume = c.min)
    (n : Nat) :
    (∀ k, k < n → (run c fails p (List.replicate k releasedDown)).status = Status.running) →
    (run c fails p (List.replicate n releasedDown)).volume = c.min ∧
    (run c fails p (List.replicate n releasedDown)).stdout
      = p.stdout ++ List.replicate n (report c.min c.max c.min) := by
  induction n with
  | zero => intro _; exact ⟨hv, by simp [run]⟩
  | succ n ih =>
    intro h
    have hn := ih (fun k hk => h k (by omega))
    have hs := h n (by omega)
    rw [run_replicate_succ]
    unfold releasedDown at *
    rw [next_down_volume c fails _ hs, next_down_stdout c fails _ hs, hn.1, hn.2,
      volumeDown_at_min]
    exact ⟨rfl, by rw [List.replicate_succ', List.append_assoc]⟩

theorem setLoop_ctl_length (fails : Nat → Bool) (k : Nat) : ∀ (i : Nat) (p : Proc),
    (setLoop fails k i p).ctl.length = p.ctl.length := by
  induction k with
  | zero => intro i p; rfl
  | succ k ih =>
    intro i p
    by_cases h : fails p.calls.length = true
    · simp [setLoop, mixer_ctl_set_value, h]
    · have h0 : fails p.calls.length = false := by simpa using h
      simp only [setLoop, mixer_ctl_set_value, h0]
      simp only [Bool.false_eq_true, if_false]
      rw [ih]
      simp

theorem setVolume_ctl_length (c : Config) (fails : Nat → Bool) (p : Proc) :
    (setVolume c fails p).ctl.length = p.ctl.length := by
  unfold setVolume; rw [setLoop_ctl_length]

theorem next_ctl_length (c : Config) (fails : Nat → Bool) (p : Proc) (r : ReadResult) :
    (next c fails p r).ctl.length = p.ctl.length := by
  unfold next
  cases p.status with
  | exited code => rfl
  | running =>
    simp only
    split_ifs
    · rfl
    · rfl
    · rfl
    · cases onEvent c p.volume r.event with
      | none => rfl
      | some v => simp [setVolume_ctl_length]

theorem run_ctl_length (c : Config) (fails : Nat → Bool) (reads : List ReadResult) :
    ∀ p : Proc, (run c fails p reads).ctl.length = p.ctl.length := by
  induction reads with
  | nil => intro p; rfl
  | cons r rest ih =>
    intro p
    show (run c fails (next c fails p r) rest).ctl.length = _
    rw [ih, next_ctl_length]

/-- The loop issues its calls in index order, at least one when it has an
iteration to make. -/
theorem setLoop_calls_exists (fails : Nat → Bool) (k : Nat) : ∀ (i : Nat) (p : Proc),
    ∃ m, m ≤ k ∧ (0 < k → 0 < m) ∧
      (setLoop fails k i p).calls = p.calls ++ callsFrom p.volume i m := by
  induction k with
  | zero => intro i p; exact ⟨0, le_refl 0, fun h => h, by simp [setLoop, callsFrom]⟩
  | succ k ih =>
    intro i p
    by_cases h : fails p.calls.length = true
    · refine ⟨1, by omega, fun _ => Nat.one_pos, ?_⟩
      simp [setLoop, mixer_ctl_set_value, h, callsFrom, List.range_succ]
    · have h0 : fails p.calls.length = false := by simpa using h
      obtain ⟨m, hm, _, hc⟩ := ih (i + 1)
        { p with calls := p.calls ++ [(i, p.volume)], ctl := p.ctl.set i p.volume }
      refine ⟨m + 1, by omega, fun _ => Nat.succ_pos m, ?_⟩
      simp only [setLoop, mixer_ctl_set_value, h0]
      simp only [Bool.false_eq_true, if_false]
      rw [hc, callsFrom_succ]
      simp

/-- What a push does to the control: it issues calls carrying the volume in
index order, at least one when the control has a channel, and when it leaves
the process running it has issued one call per channel and every channel
holds the volume. -/
theorem setVolume_push (c : Config) (fails : Nat → Bool) (q : Proc) :
    (∃ m, m ≤ q.ctl.length ∧ (0 < q.ctl.length → 0 < m) ∧
      (setVolume c fails q).calls = q.calls ++ (List.range m).map (fun i => (i, q.volume))) ∧
    ((setVolume c fails q).status = Status.running →
      (setVolume c fails q).calls
        = q.calls ++ (List.range q.ctl.length).map (fun i => (i, q.volume)) ∧
      ∀ i, i < q.ctl.length → (setVolume c fails q).ctl[i]? = some q.volume) := by
  constructor
  · obtain ⟨m, hm, hpos, hc⟩ := setLoop_calls_exists fails q.ctl.length 0
      { q with stdout := q.stdout ++ [report c.min c.max q.volume] }
    refine ⟨m, hm, hpos, ?_⟩
    have hq : (setVolume c fails q).calls = _ := hc
    rw [hq]
    simp [callsFrom]
  · intro hrun
    have hok := setLoop_running fails _ 0 _ hrun
    rw [setVolume_success c fails q hok]
    constructor
    · simp [callsFrom]
    · intro i hi
      simp [List.getElem?_replicate, hi]

theorem next_up_eq (c : Config) (fails : Nat → Bool) (p : Proc)
    (h : p.status = Status.running) :
    next c fails p releasedUp = setVolume c fails
      { p with nreads := p.nreads + 1, volume := volumeUp c.max c.step p.volume } := by
  unfold releasedUp
  rw [next_delivered c fails p _ h, onEvent_up]

theorem next_down_eq (c : Config) (fails : Nat → Bool) (p : Proc)
    (h : p.status = Status.running) :
    next c fails p releasedDown = setVolume c fails
      { p with nreads := p.nreads + 1, volume := volumeDown c.min c.step p.volume } := by
  unfold releasedDown
  rw [next_delivered c fails p _ h, onEvent_down]

theorem run_up_nreads (c : Config) (fails : Nat → Bool) (p : Proc) (n : Nat) :
    (∀ k, k < n → (run c fails p (List.replicate k releasedUp)).status = Status.running) →
    (run c fails p (List.replicate n releasedUp)).nreads = p.nreads + n := by
  induction n with
  | zero => intro _; rfl
  | succ n ih =>
    intro h
    rw [run_replicate_succ, next_up_eq c fails _ (h n (by omega)), setVolume_nreads]
    show (run c fails p (List.replicate n releasedUp)).nreads + 1 = _
    rw [ih (fun k hk => h k (by omega))]
    omega

theorem run_down_nreads (c : Config) (fails : Nat → Bool) (p : Proc) (n : Nat) :
    (∀ k, k < n → (run c fails p (List.replicate k releasedDown)).status = Status.running) →
    (run c fails p (List.replicate n releasedDown)).nreads = p.nreads + n := by
  induction n with
  | zero => intro _; rfl
  | succ n ih =>
    intro h
    rw [run_replicate_succ, next_down_eq c fails _ (h n (by omega)), setVolume_nreads]
    show (run c fails p (List.replicate n releasedDown)).nreads + 1 = _
    rw [ih (fun k hk => h k (by omega))]
    omega

/-- The push of the event that follows `k` released volume-up keys, from a
volume equal to the maximum. -/
theorem run_up_push (c : Config) (fails : Nat → Bool) (p : Proc) (hv : p.volume = c.max)
    (k : Nat)
    (h : ∀ j, j < k + 1 →
      (run c fails p (List.replicate j releasedUp)).status = Status.running) :
    (∃ m, m ≤ p.ctl.length ∧ (0 < p.ctl.length → 0 < m) ∧
      (run c fails p (List.replicate (k + 1) releasedUp)).calls
        = (run c fails p (List.replicate k releasedUp)).calls
            ++ (List.range m).map (fun i => (i, c.max))) ∧
    ((run c fails p (List.replicate (k + 1) releasedUp)).status = Status.running →
      (run c fails p (List.replicate (k + 1) releasedUp)).calls
        = (run c fails p (List.replicate k releasedUp)).calls
            ++ (List.range p.ctl.length).map (fun i => (i, c.max)) ∧
      ∀ i, i < p.ctl.length →
        (run c fails p (List.replicate (k + 1) releasedUp)).ctl[i]? = some c.max) := by
  have hk := (run_up_at_max c fails p hv k (fun j hj => h j (by omega))).1
  have hlen := run_ctl_length c fails (List.replicate k releasedUp) p
  have e := next_up_eq c fails (run c fails p (List.replicate k releasedUp)) (h k (by omega))
  rw [hk, volumeUp_at_max] at e
  rw [run_replicate_succ, e]
  have hp := setVolume_push c fails
    { run c fails p (List.replicate k releasedUp) with
      nreads := (run c fails p (List.replicate k releasedUp)).nreads + 1, volume := c.max }
  simp only [hlen] at hp
  exact hp

/-- The push of the event that follows `k` released volume-down keys, from a
volume equal to the minimum. -/
theorem run_down_push (c : Config) (fails : Nat → Bool) (p : Proc) (hv : p.volume = c.min)
    (k : Nat)
    (h : ∀ j, j < k + 1 →
      (run c fails p (List.replicate j releasedDown)).status = Status.running) :
    (∃ m, m ≤ p.ctl.length ∧ (0 < p.ctl.length → 0 < m) ∧
      (run c fails p (List.replicate (k + 1) releasedDown)).calls
        = (run c fails p (List.replicate k releasedDown)).calls
            ++ (List.range m).map (fun i => (i, c.min))) ∧
    ((run c fails p (List.replicate (k + 1) releasedDown)).status = Status.running →
      (run c fails p (List.replicate (k + 1) releasedDown)).calls
        = (run c fails p (List.replicate k releasedDown)).calls
            ++ (List.range p.ctl.length).map (fun i => (i, c.min)) ∧
      ∀ i, i < p.ctl.length →
        (run c fails p (List.replicate (k + 1) releasedDown)).ctl[i]? = some c.min) := by
  have hk := (run_down_at_min c fails p hv k (fun j hj => h j (by omega))).1
  have hlen := run_ctl_length c fails (List.replicate k releasedDown) p
  have e := next_down_eq c fails (run c fails p (List.replicate k releasedDown)) (h k (by omega))
  rw [hk, volumeDown_at_min] at e
  rw [run_replicate_succ, e]
  have hp := setVolume_push c fails
    { run c fails p (List.replicate k releasedDown) with
      nreads := (run c fails p (List.replicate k releasedDown)).nreads + 1, volume := c.min }
  simp only [hlen] at hp
  exact hp

/-- C6 (idempotent saturation): from a volume equal to the maximum, `n`
released volume-up keys, each handled by the running process, leave the volume
at the maximum, are all consumed, and print `n` lines, each the maximum
followed by ` (max)` (after ` (min)` when the range is a single value); and
each of the `n` events produces a push: it issues `mixer_ctl_set_value` calls
carrying the maximum in channel order, at least one when the control has a
channel, and when that push leaves the process running it has issued one call
per channel and every channel holds the maximum. Symmetrically for `n`
released volume-down keys from a volume equal to the minimum, with ` (min)`. -/
theorem saturation_is_idempotent (c : Config) (fails : Nat → Bool) (p : Proc) (n : Nat) :
    (p.volume = c.max →
      (∀ k, k < n → (run c fails p (List.replicate k releasedUp)).status = Status.running) →
      (run c fails p (List.replicate n releasedUp)).volume = c.max ∧
      (run c fails p (List.replicate n releasedUp)).stdout
        = p.stdout ++ List.replicate n
            (fmtInt c.max ++ (if c.max = c.min then " (min)" else "") ++ " (max)" ++ "\n") ∧
      (run c fails p (List.replicate n releasedUp)).nreads = p.nreads + n ∧
      ∀ k, k < n →
        (∃ m, m ≤ p.ctl.length ∧ (0 < p.ctl.length → 0 < m) ∧
          (run c fails p (List.replicate (k + 1) releasedUp)).calls
            = (run c fails p (List.replicate k releasedUp)).calls
                ++ (List.range m).map (fun i => (i, c.max))) ∧
        ((run c fails p (List.replicate (k + 1) releasedUp)).status = Status.running →
          (run c fails p (List.replicate (k + 1) releasedUp)).calls
            = (run c fails p (List.replicate k releasedUp)).calls
                ++ (List.range p.ctl.length).map (fun i => (i, c.max)) ∧
          ∀ i, i < p.ctl.length →
            (run c fails p (List.replicate (k + 1) releasedUp)).ctl[i]? = some c.max)) ∧
    (p.volume = c.min →
      (∀ k, k < n → (run c fails p (List.replicate k releasedDown)).status = Status.running) →
      (run c fails p (List.replicate n releasedDown)).volume = c.min ∧
      (run c fails p (List.replicate n releasedDown)).stdout
        = p.stdout ++ List.replicate n
            (fmtInt c.min ++ " (min)" ++ (if c.min = c.max then " (max)" else "") ++ "\n") ∧
      (run c fails p (List.replicate n releasedDown)).nreads = p.nreads + n ∧
      ∀ k, k < n →
        (∃ m, m ≤ p.ctl.length ∧ (0 < p.ctl.length → 0 < m) ∧
          (run c fails p (List.replicate (k + 1) releasedDown)).calls
            = (run c fails p (List.replicate k releasedDown)).calls
                ++ (List.range m).map (fun i => (i, c.min))) ∧
        ((run c fails p (List.replicate (k + 1) releasedDown)).status = Status.running →
          (run c fails p (List.replicate (k + 1) releasedDown)).calls
            = (run c fails p (List.replicate k releasedDown)).calls
                ++ (List.range p.ctl.length).map (fun i => (i, c.min)) ∧
          ∀ i, i < p.ctl.length →
            (run c fails p (List.replicate (k + 1) releasedDown)).ctl[i]? = some c.min)) := by
  constructor
  · intro hv h
    have h1 := run_up_at_max c fails p hv n h
    refine ⟨h1.1, ?_, run_up_nreads c fails p n h, ?_⟩
    · simpa [report] using h1.2
    · intro k hk
      exact run_up_push c fails p hv k (fun j hj => h j (by omega))
  · intro hv h
    have h1 := run_down_at_min c fails p hv n h
    refine ⟨h1.1, ?_, run_down_nreads c fails p n h, ?_⟩
    · simpa [report] using h1.2
    · intro k hk
      exact run_down_push c fails p hv k (fun j hj => h j (by omega))

theorem saturation_is_idempotent_witness :
    ((startProc 100 [100, 7]).volume = exampleConfig.max ∧
      (∀ k, k < 2 →
        (run exampleConfig noFailure (startProc 100 [100, 7])
          (List.replicate k releasedUp)).status = Status.running) ∧
      (run exampleConfig noFailure (startProc 100 [100, 7])
          (List.replicate (1 + 1) releasedUp)).status = Status.running ∧
      (startProc 0 [0, 7]).volume = exampleConfig.min ∧
      (∀ k, k < 2 →
        (run exampleConfig noFailure (startProc 0 [0, 7])
          (List.replicate k releasedDown)).status = Status.running)) ∧
    ((run exampleConfig noFailure (startProc 100 [100, 7])
        (List.replicate 2 releasedUp)).volume = exampleConfig.max ∧
      (run exampleConfig noFailure (startProc 100 [100, 7])
        (List.replicate 2 releasedUp)).stdout = ["100 (max)\n", "100 (max)\n"] ∧
      (run exampleConfig noFailure (startProc 100 [100, 7])
        (List.replicate 2 releasedUp)).calls = [(0, 100), (1, 100), (0, 100), (1, 100)] ∧
      (run exampleConfig noFailure (startProc 100 [100, 7])
        (List.replicate 2 releasedUp)).ctl = [100, 100]) ∧
    ((run exampleConfig noFailure (startProc 100 [100, 7])
        (List.replicate (1 + 1) releasedUp)).calls
        = (run exampleConfig noFailure (startProc 100 [100, 7])
            (List.replicate 1 releasedUp)).calls
            ++ (List.range (startProc 100 [100, 7]).ctl.length).map
                (fun i => (i, exampleConfig.max)) ∧
      ∀ i, i < (startProc 100 [100, 7]).ctl.length →
        (run exampleConfig noFailure (startProc 100 [100, 7])
          (List.replicate (1 + 1) releasedUp)).ctl[i]? = some exampleConfig.max) ∧
    ((run exampleConfig noFailure (startProc 0 [0, 7])
        (List.replicate 2 releasedDown)).volume = exampleConfig.min ∧
      (run exampleConfig noFailure (startProc 0 [0, 7])
        (List.replicate 2 releasedDown)).stdout = ["0 (min)\n", "0 (min)\n"] ∧
      (run exampleConfig noFailure (startProc 0 [0, 7])
        (List.replicate 2 releasedDown)).ctl = [0, 0]) :=
  ⟨by decide,
   ⟨((saturation_is_idempotent exampleConfig noFailure (startProc 100 [100, 7]) 2).1
       rfl (by decide)).1, by decide, by decide, by decide⟩,
   ((((saturation_is_idempotent exampleConfig noFailure (startProc 100 [100, 7]) 2).1
       rfl (by decide)).2.2.2 1 (by decide)).2 (by decide)),
   ⟨((saturation_is_idempotent exampleConfig noFailure (startProc 0 [0, 7]) 2).2
       rfl (by decide)).1, by decide, by decide⟩⟩

/-- C7 as stated fails: on the range `[5, 5]` a push of the value 5 prints
`5 (min) (max)`, which is none of `5`, `5 (min)`, `5 (max)`. -/
theorem report_line_counterexample :
    pointConfig.min ≤ pointConfig.max ∧
    (setVolume pointConfig noFailure (startProc 5 [5])).stdout = ["5 (min) (max)\n"] ∧
    "5 (min) (max)\n" ≠ fmtInt 5 ++ "\n" ∧
    "5 (min) (max)\n" ≠ fmtInt 5 ++ " (min)" ++ "\n" ∧
    "5 (min) (max)\n" ≠ fmtInt 5 ++ " (max)" ++ "\n" := by
  decide

/-- C7 (report line format, amended): for every range and every value, a push
appends to standard output exactly one newline-terminated line: the decimal
value, followed by ` (min) (max)` when the value equals both ends of the
range, otherwise by ` (min)` when it equals the minimum, by ` (max)` when it
equals the maximum, and by nothing when it equals neither. -/
theorem report_line_format (c : Config) (fails : Nat → Bool) (p : Proc) :
    (setVolume c fails p).stdout = p.stdout ++
      [fmtInt p.volume
        ++ (if p.volume = c.min ∧ p.volume = c.max then " (min) (max)"
            else if p.volume = c.min then " (min)"
            else if p.volume = c.max then " (max)"
            else "")
        ++ "\n"] := by
  rw [setVolume_stdout]
  unfold report
  have e : (" (min)" : String) ++ " (max)" = " (min) (max)" := by decide
  by_cases h1 : p.volume = c.min <;> by_cases h2 : p.volume = c.max
  · simp only [if_pos h1, if_pos h2, if_pos (And.intro h1 h2), String.append_assoc]
    rw [← String.append_assoc " (min)" " (max)" "\n", e]
  · have h3 : ¬ (p.volume = c.min ∧ p.volume = c.max) := fun h => h2 h.2
    simp only [if_pos h1, if_neg h2, if_neg h3, String.append_empty]
  · have h3 : ¬ (p.volume = c.min ∧ p.volume = c.max) := fun h => h1 h.1
    simp only [if_neg h1, if_pos h2, if_neg h3, String.append_empty]
  · have h3 : ¬ (p.volume = c.min ∧ p.volume = c.max) := fun h => h1 h.1
    simp only [if_neg h1, if_neg h2, if_neg h3, String.append_empty]

/-- C8 (control-write failure is fatal and not rolled back): if during a push
`mixer_ctl_set_value` succeeds on channels `0..k-1` and fails on channel
`k < N`, the process has returned `EXIT_FAILURE` (non-zero), channels `0..k-1`
hold the new value, the calls issued in the push are exactly those for
channels `0..k`, every channel above `k` keeps its previous contents, and no
further `read` result is consumed. -/
theorem write_failure_is_fatal (c : Config) (fails : Nat → Bool) (p : Proc) (k : Nat)
    (hk : k < p.ctl.length)
    (hok : ∀ j, j < k → fails (p.calls.length + j) = false)
    (hfail : fails (p.calls.length + k) = true) :
    (setVolume c fails p).status = Status.exited EXIT_FAILURE ∧
    EXIT_FAILURE ≠ 0 ∧
    (∀ i, i < k → (setVolume c fails p).ctl[i]? = some p.volume) ∧
    (setVolume c fails p).calls
      = p.calls ++ (List.range (k + 1)).map (fun i => (i, p.volume)) ∧
    (∀ i, k < i → (setVolume c fails p).ctl[i]? = p.ctl[i]?) ∧
    (∀ reads, run c fails (setVolume c fails p) reads = setVolume c fails p) ∧
    (∀ reads, (run c fails (setVolume c fails p) reads).nreads = p.nreads) := by
  have e := setLoop_failure fails k p.ctl.length 0
    { p with stdout := p.stdout ++ [report c.min c.max p.volume] } hk hok hfail
  have hq : setVolume c fails p = _ := e
  have hst : (setVolume c fails p).status = Status.exited EXIT_FAILURE := by rw [hq]
  have hrun : ∀ reads, run c fails (setVolume c fails p) reads = setVolume c fails p :=
    fun reads => run_exited c fails reads _ _ hst
  refine ⟨hst, by decide, ?_, ?_, ?_, hrun, ?_⟩
  · intro i hi
    rw [hq]
    simp only [fill_getElem?]
    rw [if_pos ⟨Nat.zero_le i, by omega, by omega⟩]
  · rw [hq]; simp [callsFrom]
  · intro i hi
    rw [hq]
    simp only [fill_getElem?]
    rw [if_neg (by omega)]
  · intro reads
    rw [hrun reads, setVolume_nreads]

theorem write_failure_is_fatal_witness :
    (1 < (startProc 50 [1, 2, 3]).ctl.length ∧
      (∀ j, j < 1 → failureAt 1 ((startProc 50 [1, 2, 3]).calls.length + j) = false) ∧
      failureAt 1 ((startProc 50 [1, 2, 3]).calls.length + 1) = true) ∧
    (setVolume exampleConfig (failureAt 1) (startProc 50 [1, 2, 3])).status
      = Status.exited EXIT_FAILURE ∧
    (setVolume exampleConfig (failureAt 1) (startProc 50 [1, 2, 3])).ctl = [50, 2, 3] ∧
    (setVolume exampleConfig (failureAt 1) (startProc 50 [1, 2, 3])).calls = [(0, 50), (1, 50)] :=
  ⟨by decide,
   (write_failure_is_fatal exampleConfig (failureAt 1) (startProc 50 [1, 2, 3]) 1
      (by decide) (by decide) (by decide)).1,
   by decide, by decide⟩

/-- C9 (interrupted reads are transparent): for every process and every finite
list of `read` results, removing every result that is a failure with `EINTR`
changes neither the resulting volume, nor what is written to `stdout` and
`stderr`, nor the `mixer_ctl_set_value` calls and the contents of the channels,
nor the exit status; and a single interrupted `read` changes none of these. -/
theorem interrupted_reads_are_transparent (c : Config) (fails : Nat → Bool) (p : Proc)
    (reads : List ReadResult) (e : InputEvent) :
    ((run c fails p (reads.filter (fun r => !interrupted r))).volume
        = (run c fails p reads).volume ∧
      (run c fails p (reads.filter (fun r => !interrupted r))).stdout
        = (run c fails p reads).stdout ∧
      (run c fails p (reads.filter (fun r => !interrupted r))).calls
        = (run c fails p reads).calls ∧
      (run c fails p (reads.filter (fun r => !interrupted r))).ctl
        = (run c fails p reads).ctl ∧
      (run c fails p (reads.filter (fun r => !interrupted r))).stderr
        = (run c fails p reads).stderr ∧
      (run c fails p (reads.filter (fun r => !interrupted r))).status
        = (run c fails p reads).status) ∧
    ((next c fails p { sret := -1, errno := EINTR, event := e }).volume = p.volume ∧
      (next c fails p { sret := -1, errno := EINTR, event := e }).stdout = p.stdout ∧
      (next c fails p { sret := -1, errno := EINTR, event := e }).calls = p.calls ∧
      (next c fails p { sret := -1, errno := EINTR, event := e }).ctl = p.ctl ∧
      (next c fails p { sret := -1, errno := EINTR, event := e }).stderr = p.stderr ∧
      (next c fails p { sret := -1, errno := EINTR, event := e }).status = p.status) := by
  constructor
  · obtain ⟨m, hm⟩ := run_filter_interrupted c fails reads p
    rw [hm]
    exact ⟨rfl, rfl, rfl, rfl, rfl, rfl⟩
  · obtain ⟨m, hm⟩ := next_interrupted c fails p { sret := -1, errno := EINTR, event := e }
      (by simp [interrupted])
    rw [hm]
    exact ⟨rfl, rfl, rfl, rfl, rfl, rfl⟩

/-- C10 (no wrap-around in the step arithmetic): for 32-bit `min`, `max`,
`value` and `step` with `min ≤ value ≤ max`, `step ≥ 1` and
`max - min ≤ 2^31 - 1`, every operation the volume-down and volume-up branches
evaluate has an exact result that `wrap32` leaves as it is, and the branches
compute `max (value - step) min` and `min (value + step) max`. -/
theorem step_arithmetic_does_not_wrap (min max step value : Int)
    (hmin : isInt min) (hmax : isInt max) (hstep : isInt step) (hs : 1 ≤ step)
    (hlo : min ≤ value) (hhi : value ≤ max) (hw : max - min ≤ 2147483647) :
    (∀ x ∈ volumeDownOps min step value, wrap32 x = x) ∧
    (∀ x ∈ volumeUpOps max step value, wrap32 x = x) ∧
    volumeDown min step value = Max.max (value - step) min ∧
    volumeUp max step value = Min.min (value + step) max := by
  have hv : isInt value := by unfold isInt at *; omega
  refine ⟨?_, ?_, volumeDown_eq hmin hv hs hlo (by omega), volumeUp_eq hmax hv hs hhi (by omega)⟩
  · intro x hx
    apply wrap32_of_isInt
    unfold volumeDownOps isub wrap32 at hx
    unfold isInt at *
    split_ifs at hx <;> simp at hx <;> omega
  · intro x hx
    apply wrap32_of_isInt
    unfold volumeUpOps isub wrap32 at hx
    unfold isInt at *
    split_ifs at hx <;> simp at hx <;> omega

theorem step_arithmetic_does_not_wrap_witness :
    (isInt (-100) ∧ isInt 2147483547 ∧ isInt 3 ∧ (1 : Int) ≤ 3 ∧ (-100 : Int) ≤ 2147483546 ∧
      (2147483546 : Int) ≤ 2147483547 ∧ (2147483547 : Int) - (-100) ≤ 2147483647) ∧
    volumeDownOps (-100) 3 2147483546 = [2147483646, 2147483543] ∧
    ((∀ x ∈ volumeDownOps (-100) 3 2147483546, wrap32 x = x) ∧
      (∀ x ∈ volumeUpOps 2147483547 3 2147483546, wrap32 x = x) ∧
      volumeDown (-100) 3 2147483546 = Max.max (2147483546 - 3) (-100) ∧
      volumeUp 2147483547 3 2147483546 = Min.min (2147483546 + 3) 2147483547) :=
  ⟨by decide, by decide,
   step_arithmetic_does_not_wrap (-100) 2147483547 3 2147483546
     (by decide) (by decide) (by decide) (by decide) (by decide) (by decide) (by decide)⟩

end U7
